import Mathlib

/-!
Verification of the bot lifecycle and orchestration engine of
CryptoBotManager (src/core/base_bot.py, src/core/bot_manager.py,
src/core/universal_bot.py).

Shallow embedding conventions:
* Python ints are modelled as `Nat` (the configuration values in
  `config_manager.py` default to nonnegative ints), Python floats that
  only carry durations as `Rat`.
* The wall-clock (`time.time()`) and the string fields of `BotStats`
  (`current_action`, `last_error`, `last_success`) carry no claim
  content and are omitted; the per-cycle wall time measured by `run()`
  is passed in as an explicit `Rat` argument of a successful outcome.
* `asyncio` cooperative concurrency is modelled sequentially: one bot's
  `run()` loop is a fold over the list of outcomes of the successive
  `execute_cycle()` calls, and the manager operations are pure state
  transformers on a manager state.  Python dicts are association lists
  whose key lists are duplicate-free.
-/

namespace CryptoBotManager

/-- Status enum of `base_bot.py` (class `BotStatus`). -/
inductive BotStatus where
  | stopped
  | running
  | working
  | error
  | waiting
  | loggingIn
  | solvingCaptcha
  | collectingReward
  | navigating
  | restarting
deriving DecidableEq, Repr

/-- Counters of the `BotStats` dataclass (`base_bot.py`, lines 31-43).
String and timestamp fields are omitted (see the file header). -/
structure BotStats where
  success_count : Nat := 0
  failure_count : Nat := 0
  total_time : Rat := 0
  cycles_completed : Nat := 0
  captchas_solved : Nat := 0
  avg_cycle_time : Rat := 0
  consecutive_errors : Nat := 0
deriving DecidableEq, Repr

/-- The configuration fields of `UniversalBotConfig` that `BaseBot.run`
reads (`config_manager.py`, lines 101-104). -/
structure BotConfig where
  enabled : Bool
  cycle_delay : Rat
  max_consecutive_errors : Nat
  stop_on_critical_error : Bool
deriving DecidableEq, Repr

/-- Embeds `BaseBot._on_cycle_success` (`base_bot.py`, lines 177-186). -/
def onCycleSuccess (s : BotStats) (cycleTime : Rat) : BotStats :=
  let s1 : BotStats :=
    { s with
      success_count := s.success_count + 1
      consecutive_errors := 0
      cycles_completed := s.cycles_completed + 1
      total_time := s.total_time + cycleTime }
  if 0 < s1.cycles_completed then
    { s1 with avg_cycle_time := s1.total_time / (s1.cycles_completed : Rat) }
  else s1

/-- Embeds `BaseBot._on_cycle_failure` (`base_bot.py`, lines 188-193). -/
def onCycleFailure (s : BotStats) : BotStats :=
  { s with
    failure_count := s.failure_count + 1
    consecutive_errors := s.consecutive_errors + 1
    cycles_completed := s.cycles_completed + 1 }

/-- Embeds `BaseBot._on_cycle_exception` (`base_bot.py`, lines 195-201).
Note that, unlike `_on_cycle_failure`, it does not increment
`cycles_completed`. -/
def onCycleException (s : BotStats) : BotStats :=
  { s with
    failure_count := s.failure_count + 1
    consecutive_errors := s.consecutive_errors + 1 }

/-- The delay value computed by `BaseBot._smart_delay`
(`base_bot.py`, lines 203-214): the configured `cycle_delay`, scaled by
`1 + consecutive_errors * 0.5` when there are consecutive errors, then
clamped by `max(30, min(base_delay, 3600))`. -/
def smartDelay (cfg : BotConfig) (consecutiveErrors : Nat) : Rat :=
  let base := cfg.cycle_delay
  let base :=
    if 0 < consecutiveErrors then
      base * (1 + (consecutiveErrors : Rat) * (1 / 2))
    else base
  max 30 (min base 3600)

/-- The mutable state of one `BaseBot`: current status, statistics and
the `_stop_event` flag. -/
structure BotMachine where
  status : BotStatus
  stats : BotStats
  stopRequested : Bool
deriving DecidableEq, Repr

/-- Embeds `BaseBot.update_status` (`base_bot.py`, lines 223-227); the message
string is dropped. -/
def updateStatus (b : BotMachine) (st : BotStatus) : BotMachine :=
  { b with status := st }

/-- Embeds `BaseBot.cleanup` (`base_bot.py`, lines 287-291): releases browser
resources and clears the `_stop_event` flag. -/
def cleanup (b : BotMachine) : BotMachine :=
  { b with stopRequested := false }

/-- Embeds `BaseBot.stop` (`base_bot.py`, lines 281-285): set status to
`STOPPED`, set the `_stop_event` flag, then call `cleanup()` (which
clears that same flag again). -/
def stop (b : BotMachine) : BotMachine :=
  cleanup { updateStatus b BotStatus.stopped with stopRequested := true }

/-- A freshly constructed bot (`BaseBot.__init__`). -/
def initialBot : BotMachine :=
  { status := BotStatus.stopped, stats := {}, stopRequested := false }

/-- The observable outcome of one `execute_cycle()` call as seen by the
`run()` loop: returned `True` (with the measured cycle time), returned
`False`, raised an ordinary exception, or raised
`asyncio.CancelledError`. -/
inductive CycleOutcome where
  | success (cycleTime : Rat)
  | failure
  | exc
  | cancelled
deriving DecidableEq, Repr

/-- The consecutive-error circuit breaker of `BaseBot.run`
(`base_bot.py`, lines 117-123): when `consecutive_errors` has reached
`max_consecutive_errors` the status becomes `ERROR`, and the loop
breaks iff `stop_on_critical_error` is set.  Returns the updated
machine and whether the loop breaks. -/
def breakerCheck (cfg : BotConfig) (b : BotMachine) : BotMachine × Bool :=
  if cfg.max_consecutive_errors ≤ b.stats.consecutive_errors then
    (updateStatus b BotStatus.error, cfg.stop_on_critical_error)
  else (b, false)

/-- The inter-cycle delay step of `BaseBot.run` (`base_bot.py`, lines
130-132): when the bot is not stopping and still enabled,
`_smart_delay` sets the status to `WAITING` and sleeps. -/
def postDelay (cfg : BotConfig) (b : BotMachine) : BotMachine :=
  if b.stopRequested = false ∧ cfg.enabled = true then
    updateStatus b BotStatus.waiting
  else b

/-- The `while` loop of `BaseBot.run` (`base_bot.py`, lines 104-132),
driven by the list of `execute_cycle()` outcomes.  Returns the machine
state when the loop exits together with the number of cycles whose
bookkeeping ran.  The loop head re-checks `_stop_event` and
`config.enabled`; `CancelledError` breaks immediately; an ordinary
exception is handled by `_on_cycle_exception` and, unlike the
returned-`False` case, skips the circuit-breaker check. -/
def runCycles (cfg : BotConfig) : BotMachine → List CycleOutcome → BotMachine × Nat
  | b, [] => (b, 0)
  | b, o :: rest =>
    if b.stopRequested = true ∨ cfg.enabled = false then (b, 0)
    else
      match o with
      | CycleOutcome.cancelled => (b, 0)
      | CycleOutcome.success t =>
        let pb := breakerCheck cfg { b with stats := onCycleSuccess b.stats t }
        if pb.2 = true then (pb.1, 1)
        else
          let r := runCycles cfg (postDelay cfg pb.1) rest
          (r.1, r.2 + 1)
      | CycleOutcome.failure =>
        let pb := breakerCheck cfg { b with stats := onCycleFailure b.stats }
        if pb.2 = true then (pb.1, 1)
        else
          let r := runCycles cfg (postDelay cfg pb.1) rest
          (r.1, r.2 + 1)
      | CycleOutcome.exc =>
        let r := runCycles cfg (postDelay cfg { b with stats := onCycleException b.stats }) rest
        (r.1, r.2 + 1)

/-- Embeds `BaseBot.initialize` (`base_bot.py`, lines 70-93), abstracted to
its success flag: sets status `RUNNING` on success, `ERROR` on
failure. -/
def initializeStep (ok : Bool) (b : BotMachine) : BotMachine :=
  if ok = true then updateStatus b BotStatus.running
  else updateStatus b BotStatus.error

/-- Embeds `BaseBot.run` (`base_bot.py`, lines 95-141): run `initialize()`
(returning immediately on failure), run the cycle loop, and in the
`finally` block run `cleanup()` and set the status to `STOPPED`. -/
def runBot (cfg : BotConfig) (initOk : Bool) (b : BotMachine)
    (outcomes : List CycleOutcome) : BotMachine × Nat :=
  if initOk = false then (initializeStep false b, 0)
  else
    let r := runCycles cfg (initializeStep true b) outcomes
    (updateStatus (cleanup r.1) BotStatus.stopped, r.2)

/-- The number of exception outcomes in a list of cycle outcomes. -/
def countExc : List CycleOutcome → Nat
  | [] => 0
  | o :: rest => (if o = CycleOutcome.exc then 1 else 0) + countExc rest

/-- Result of one overridable step called by `execute_cycle`: returned
a boolean, or raised an exception. -/
inductive StepOutcome where
  | ok (b : Bool)
  | raises
deriving DecidableEq, Repr

/-- Environment of one `BaseBot.execute_cycle` call: whether
`create_browser` produced a page, and the outcomes of `is_logged_in`,
`login` and `perform_actions`. -/
structure CycleEnv where
  createOk : Bool
  loggedIn : StepOutcome
  login : StepOutcome
  actions : StepOutcome
deriving DecidableEq, Repr

/-- Tail of `execute_cycle` after authentication (`base_bot.py`, lines
160-169): run `perform_actions`; on a raised exception the handler at
line 171 returns `False` without `browser.close()`; otherwise cookies
are saved on success, the browser is closed, and the result is
returned. -/
def afterAuth (env : CycleEnv) : Bool × Nat × Nat :=
  match env.actions with
  | StepOutcome.raises => (false, 1, 0)
  | StepOutcome.ok r => (r, 1, 1)

/-- Embeds `BaseBot.execute_cycle` (`base_bot.py`, lines 142-175) with
explicit resource accounting: the result is
`(returned value, browsers acquired, browsers closed)`.
`create_browser` failure returns `(None, None)`, so nothing is
acquired on that path; a failed `login` closes the browser before
returning; an exception raised by `is_logged_in`, `login` or
`perform_actions` is caught by the handler at line 171, which returns
`False` without closing the browser. -/
def executeCycle (env : CycleEnv) : Bool × Nat × Nat :=
  if env.createOk = false then (false, 0, 0)
  else
    match env.loggedIn with
    | StepOutcome.raises => (false, 1, 0)
    | StepOutcome.ok li =>
      if li = true then afterAuth env
      else
        match env.login with
        | StepOutcome.raises => (false, 1, 0)
        | StepOutcome.ok false => (false, 1, 1)
        | StepOutcome.ok true => afterAuth env

/-- Number of true signals among the six positive login indicators
(`universal_bot.py`, lines 945-950): logout text, profile text, a
visible user element, balance (text or configured element), welcome
text, and a user identifier containing an email. -/
def positiveCount (lo pr ue bal we ui : Bool) : Nat :=
  lo.toNat + pr.toNat + ue.toNat + bal.toNat + we.toNat + ui.toNat

/-- Decision rule of `UniversalBot._verify_login_success`
(`universal_bot.py`, lines 840-980) over the gathered boolean signals.
`urlLogin` is the strategy-1 short circuit (URL contains a login
keyword, line 846); `bt`/`be` are the two halves of the balance signal
(text indicator and configured selector element); `form` is the
login-form-visible flag.  The single-signal exception at line 970
tests `has_balance_element or has_profile`, i.e. the element half of
the balance signal only. -/
def verifyLoginSuccess (urlLogin lo pr ue bt be we ui form : Bool) : Bool :=
  if urlLogin = true then false
  else
    let pc := positiveCount lo pr ue (bt || be) we ui
    if form = true ∧ pc < 2 then false
    else if 2 ≤ pc then true
    else if pc = 1 ∧ (be = true ∨ pr = true) then true
    else false

/-- One `asyncio.Task` handle tracked by the manager: an identity and
whether `task.done()` holds. -/
structure BotTask where
  id : Nat
  done : Bool
deriving DecidableEq, Repr

/-- One entry of `BotManager.bots`: the bot instance together with its
configuration's `enabled` flag. -/
structure BotEntry where
  enabled : Bool
  machine : BotMachine
deriving DecidableEq, Repr

/-- Python-dict lookup on an association list. -/
def lookupK {α : Type} (k : String) : List (String × α) → Option α
  | [] => none
  | (n, v) :: rest => if n = k then some v else lookupK k rest

/-- Python-dict `pop`: remove the entry with the given key. -/
def removeK {α : Type} (k : String) : List (String × α) → List (String × α)
  | [] => []
  | (n, v) :: rest => if n = k then rest else (n, v) :: removeK k rest

/-- Python-dict assignment: replace the entry with the given key, or
append a fresh one. -/
def updateK {α : Type} (k : String) (v : α) :
    List (String × α) → List (String × α)
  | [] => [(k, v)]
  | (n, u) :: rest =>
    if n = k then (k, v) :: rest else (n, u) :: updateK k v rest

/-- Number of entries stored under a key. -/
def countK {α : Type} (k : String) (l : List (String × α)) : Nat :=
  l.countP (fun p => p.1 == k)

/-- State owned by `BotManager` (`bot_manager.py`): the bot instances,
the tracked task handles, and a counter supplying fresh task
identities for `asyncio.create_task`. -/
structure ManagerState where
  bots : List (String × BotEntry)
  tasks : List (String × BotTask)
  nextId : Nat
deriving DecidableEq, Repr

/-- Embeds `BotManager.start_bot` (`bot_manager.py`, lines 101-126): fail on
an unknown name; fail on a disabled config; succeed without a new task
when a not-yet-done task is tracked; otherwise track a fresh task. -/
def startBot (m : ManagerState) (x : String) : ManagerState × Bool :=
  match lookupK x m.bots with
  | none => (m, false)
  | some e =>
    if e.enabled = false then (m, false)
    else
      match lookupK x m.tasks with
      | some t =>
        if t.done = false then (m, true)
        else
          ({ m with
              tasks := updateK x { id := m.nextId, done := false } m.tasks
              nextId := m.nextId + 1 }, true)
      | none =>
        ({ m with
            tasks := updateK x { id := m.nextId, done := false } m.tasks
            nextId := m.nextId + 1 }, true)

/-- Embeds `BotManager.stop_bot` (`bot_manager.py`, lines 139-163): an
untracked name returns `True` untouched; an unknown bot name raises a
`KeyError`, caught by the handler returning `False`; otherwise the bot
is stopped, its task cancelled and awaited, and the handle removed. -/
def stopBot (m : ManagerState) (x : String) : ManagerState × Bool :=
  match lookupK x m.tasks with
  | none => (m, true)
  | some _ =>
    match lookupK x m.bots with
    | none => (m, false)
    | some e =>
      let m1 := { m with bots := updateK x { e with machine := stop e.machine } m.bots }
      ({ m1 with tasks := removeK x m1.tasks }, true)

/-- Embeds `BotManager.restart_bot` (`bot_manager.py`, lines 165-173):
`stop_bot`, a settle delay, then `start_bot`. -/
def restartBot (m : ManagerState) (x : String) : ManagerState × Bool :=
  startBot (stopBot m x).1 x

/-- Body of the scan in `BotManager._perform_health_check`
(`bot_manager.py`, lines 224-232) for one snapshot entry: a finished
task is popped, and the bot is restarted iff it still exists and its
config is enabled. -/
def processEntry (m : ManagerState) (p : String × BotTask) : ManagerState :=
  if p.2.done = true then
    let m1 := { m with tasks := removeK p.1 m.tasks }
    match lookupK p.1 m.bots with
    | some e => if e.enabled = true then (restartBot m1 p.1).1 else m1
    | none => m1
  else m

/-- Embeds `BotManager._perform_health_check` (`bot_manager.py`, lines
224-232): iterate over a snapshot (`list(self.tasks.items())`) of the
tracked handles, processing each entry against the evolving state. -/
def healthCheck (m : ManagerState) : ManagerState :=
  m.tasks.foldl processEntry m

/-- An enabled configuration with `stop_on_critical_error = true`, the
given cycle delay and the given consecutive-error ceiling. -/
def alwaysStopCfg (cd : Rat) (N : Nat) : BotConfig :=
  { enabled := true, cycle_delay := cd, max_consecutive_errors := N,
    stop_on_critical_error := true }

/-- Sample configuration used by concrete witnesses: enabled,
`cycle_delay = 300`, `max_consecutive_errors = 3`,
`stop_on_critical_error = true`. -/
def cfgW : BotConfig :=
  { enabled := true, cycle_delay := 300, max_consecutive_errors := 3,
    stop_on_critical_error := true }

/-- Sample enabled bot entry. -/
def entryW : BotEntry := { enabled := true, machine := initialBot }

/-- Sample manager with one enabled bot whose tracked task has
finished. -/
def mgrA : ManagerState :=
  { bots := [("a", entryW)], tasks := [("a", { id := 0, done := true })],
    nextId := 1 }

/-- Sample manager with one enabled bot and one live (not done)
tracked task. -/
def mgr9 : ManagerState :=
  { bots := [("a", entryW)], tasks := [("a", { id := 0, done := false })],
    nextId := 1 }

/-- Sample manager with one enabled bot and no tracked tasks. -/
def mgr10 : ManagerState :=
  { bots := [("a", entryW)], tasks := [], nextId := 1 }

/-! ### Projection lemmas for the cycle bookkeeping -/

@[simp] theorem onCycleSuccess_success_count (s : BotStats) (t : Rat) :
    (onCycleSuccess s t).success_count = s.success_count + 1 := by
  simp only [onCycleSuccess]; split <;> rfl

@[simp] theorem onCycleSuccess_failure_count (s : BotStats) (t : Rat) :
    (onCycleSuccess s t).failure_count = s.failure_count := by
  simp only [onCycleSuccess]; split <;> rfl

@[simp] theorem onCycleSuccess_cycles_completed (s : BotStats) (t : Rat) :
    (onCycleSuccess s t).cycles_completed = s.cycles_completed + 1 := by
  simp only [onCycleSuccess]; split <;> rfl

@[simp] theorem onCycleSuccess_consecutive_errors (s : BotStats) (t : Rat) :
    (onCycleSuccess s t).consecutive_errors = 0 := by
  simp only [onCycleSuccess]; split <;> rfl

@[simp] theorem onCycleFailure_success_count (s : BotStats) :
    (onCycleFailure s).success_count = s.success_count := rfl

@[simp] theorem onCycleFailure_failure_count (s : BotStats) :
    (onCycleFailure s).failure_count = s.failure_count + 1 := rfl

@[simp] theorem onCycleFailure_cycles_completed (s : BotStats) :
    (onCycleFailure s).cycles_completed = s.cycles_completed + 1 := rfl

@[simp] theorem onCycleFailure_consecutive_errors (s : BotStats) :
    (onCycleFailure s).consecutive_errors = s.consecutive_errors + 1 := rfl

@[simp] theorem onCycleException_success_count (s : BotStats) :
    (onCycleException s).success_count = s.success_count := rfl

@[simp] theorem onCycleException_failure_count (s : BotStats) :
    (onCycleException s).failure_count = s.failure_count + 1 := rfl

@[simp] theorem onCycleException_cycles_completed (s : BotStats) :
    (onCycleException s).cycles_completed = s.cycles_completed := rfl

@[simp] theorem onCycleException_consecutive_errors (s : BotStats) :
    (onCycleException s).consecutive_errors = s.consecutive_errors + 1 := rfl

@[simp] theorem updateStatus_stats (b : BotMachine) (st : BotStatus) :
    (updateStatus b st).stats = b.stats := rfl

@[simp] theorem updateStatus_stopRequested (b : BotMachine) (st : BotStatus) :
    (updateStatus b st).stopRequested = b.stopRequested := rfl

@[simp] theorem updateStatus_status (b : BotMachine) (st : BotStatus) :
    (updateStatus b st).status = st := rfl

@[simp] theorem cleanup_stats (b : BotMachine) : (cleanup b).stats = b.stats := rfl

@[simp] theorem breakerCheck_fst_stats (cfg : BotConfig) (b : BotMachine) :
    (breakerCheck cfg b).1.stats = b.stats := by
  simp only [breakerCheck]; split <;> rfl

@[simp] theorem breakerCheck_fst_stopRequested (cfg : BotConfig) (b : BotMachine) :
    (breakerCheck cfg b).1.stopRequested = b.stopRequested := by
  simp only [breakerCheck]; split <;> rfl

@[simp] theorem postDelay_stats (cfg : BotConfig) (b : BotMachine) :
    (postDelay cfg b).stats = b.stats := by
  simp only [postDelay]; split <;> rfl

@[simp] theorem postDelay_stopRequested (cfg : BotConfig) (b : BotMachine) :
    (postDelay cfg b).stopRequested = b.stopRequested := by
  simp only [postDelay]; split <;> rfl

/-! ### Claim C3 -/

/-- Claim C3: over every combination of the boolean signals gathered by
`_verify_login_success` (after the URL short circuit), the function
returns false when the login form is visible and fewer than 2 positive
signals hold; returns true when 2 or more positive signals hold
regardless of the form; and with exactly one positive signal it
returns true only if that signal is the balance or the profile signal,
and returns false when that single signal is neither. -/
theorem claim3_thm : ∀ lo pr ue bt be we ui form : Bool,
    (form = true → positiveCount lo pr ue (bt || be) we ui < 2 →
      verifyLoginSuccess false lo pr ue bt be we ui form = false)
  ∧ (2 ≤ positiveCount lo pr ue (bt || be) we ui →
      verifyLoginSuccess false lo pr ue bt be we ui form = true)
  ∧ (positiveCount lo pr ue (bt || be) we ui = 1 →
      verifyLoginSuccess false lo pr ue bt be we ui form = true →
      (bt || be) = true ∨ pr = true)
  ∧ (positiveCount lo pr ue (bt || be) we ui = 1 →
      (bt || be) = false → pr = false →
      verifyLoginSuccess false lo pr ue bt be we ui form = false) := by
  decide

/-- Witness for C3 at a concrete signal combination (spec scenario C: a
visible login form together with a welcome greeting and a balance
element, two positive signals, is verified as logged in). -/
theorem claim3_witness :
    verifyLoginSuccess false false false false false true true false true = true :=
  (claim3_thm false false false false true true false true).2.1 (by decide)

/-! ### Claim C4 -/

/-- Claim C4 (code bug): evaluating `execute_cycle` in an environment
where `create_browser` succeeds, the session is already authenticated,
and `perform_actions` raises, the call returns `False` having acquired
one browser and closed none: the exception exit path does not release
the page/browser resource. -/
theorem claim4_bug_eval :
    executeCycle
      { createOk := true, loggedIn := StepOutcome.ok true,
        login := StepOutcome.ok true, actions := StepOutcome.raises }
      = (false, 1, 0) := rfl

/-! ### Claim C6 -/

/-- Claim C6 counterexample: after `stop()` completes on a freshly
constructed bot, the cooperative cancellation flag (`_stop_event`) is
not set — `stop()` sets it but then calls `cleanup()`, which clears it
— and consequently a further cycle does begin when the loop head is
next evaluated (here one failure cycle runs to completion). -/
theorem claim6_counterexample :
    (stop initialBot).stopRequested = false
  ∧ (runCycles cfgW (stop initialBot) [CycleOutcome.failure]).2 = 1 := by
  decide

/-- Claim C6 amended: an external `stop()` forces the bot's status to
`Stopped`, and it sets the cooperative cancellation flag, but the
`cleanup()` it invokes clears that flag again before `stop()` returns,
so the flag observed at the loop head after `stop()` completes is
clear; the loop is actually broken by the task cancellation that
`BotManager.stop_bot` performs, not by this flag. -/
theorem claim6_amended (b : BotMachine) :
    (stop b).status = BotStatus.stopped ∧ (stop b).stopRequested = false :=
  ⟨rfl, rfl⟩

/-! ### Claim C7 -/

/-- Claim C7: for every configured `cycle_delay` and consecutive-error
count, `_smart_delay` computes `cycle_delay * (1 + consecutive_errors
* 0.5)` clamped into `[30, 3600]`; with `cycle_delay` fixed it is
monotonically non-decreasing in `consecutive_errors`; and it always
lies within `[30, 3600]`. -/
theorem claim7_thm (cfg : BotConfig) (e e' : Nat) :
    smartDelay cfg e
      = max 30 (min (cfg.cycle_delay * (1 + (e : Rat) * (1 / 2))) 3600)
  ∧ (e ≤ e' → smartDelay cfg e ≤ smartDelay cfg e')
  ∧ 30 ≤ smartDelay cfg e ∧ smartDelay cfg e ≤ 3600 := by
  have hval : ∀ n : Nat, smartDelay cfg n
      = max 30 (min (cfg.cycle_delay * (1 + (n : Rat) * (1 / 2))) 3600) := by
    intro n
    rcases Nat.eq_zero_or_pos n with hn | hn
    · subst hn; simp [smartDelay]
    · simp [smartDelay, hn]
  refine ⟨hval e, ?_, ?_, ?_⟩
  · intro h
    rw [hval e, hval e']
    rcases le_or_lt cfg.cycle_delay 0 with hd | hd
    · have h1 : cfg.cycle_delay * (1 + (e : Rat) * (1 / 2)) ≤ 0 := by
        have : (0 : Rat) ≤ 1 + (e : Rat) * (1 / 2) := by positivity
        exact mul_nonpos_of_nonpos_of_nonneg hd this
      have h2 : cfg.cycle_delay * (1 + (e' : Rat) * (1 / 2)) ≤ 0 := by
        have : (0 : Rat) ≤ 1 + (e' : Rat) * (1 / 2) := by positivity
        exact mul_nonpos_of_nonpos_of_nonneg hd this
      have e1 : max 30 (min (cfg.cycle_delay * (1 + (e : Rat) * (1 / 2))) 3600)
          = 30 := by
        apply max_eq_left
        exact le_trans (min_le_left _ _) (le_trans h1 (by norm_num))
      have e2 : max 30 (min (cfg.cycle_delay * (1 + (e' : Rat) * (1 / 2))) 3600)
          = 30 := by
        apply max_eq_left
        exact le_trans (min_le_left _ _) (le_trans h2 (by norm_num))
      rw [e1, e2]
    · have hcast : (e : Rat) ≤ (e' : Rat) := by exact_mod_cast h
      have hmul : cfg.cycle_delay * (1 + (e : Rat) * (1 / 2))
          ≤ cfg.cycle_delay * (1 + (e' : Rat) * (1 / 2)) := by
        apply mul_le_mul_of_nonneg_left _ (le_of_lt hd)
        linarith
      exact max_le_max (le_refl 30) (min_le_min hmul (le_refl 3600))
  · rw [hval e]; exact le_max_left _ _
  · rw [hval e]
    exact max_le (by norm_num) (min_le_right _ _)

/-- Witness for C7 at `cycle_delay = 300`: the delay after one
consecutive error is at most the delay after two. -/
theorem claim7_witness : smartDelay cfgW 1 ≤ smartDelay cfgW 2 :=
  (claim7_thm cfgW 1 2).2.1 (by decide)

/-! ### Claim C8 -/

/-- Claim C8: in a cycle of `BaseBot.run` that the loop head admits, a
successful `execute_cycle` leaves `consecutive_errors` exactly 0 after
the cycle's bookkeeping, while a `False` return or a raised exception
leaves it exactly one greater than before the cycle. -/
theorem claim8_thm (cfg : BotConfig) (b : BotMachine) (t : Rat)
    (hs : b.stopRequested = false) (he : cfg.enabled = true) :
    (runCycles cfg b [CycleOutcome.success t]).1.stats.consecutive_errors = 0
  ∧ (runCycles cfg b [CycleOutcome.failure]).1.stats.consecutive_errors
      = b.stats.consecutive_errors + 1
  ∧ (runCycles cfg b [CycleOutcome.exc]).1.stats.consecutive_errors
      = b.stats.consecutive_errors + 1 := by
  refine ⟨?_, ?_, ?_⟩
  · simp only [runCycles]
    rw [if_neg (by simp [hs, he])]
    split <;> simp [runCycles]
  · simp only [runCycles]
    rw [if_neg (by simp [hs, he])]
    split <;> simp [runCycles]
  · simp only [runCycles]
    rw [if_neg (by simp [hs, he])]
    simp [runCycles]

/-- Witness for C8: a successful first cycle of the sample bot resets
`consecutive_errors` to 0. -/
theorem claim8_witness :
    (runCycles cfgW initialBot [CycleOutcome.success 10]).1.stats.consecutive_errors
      = 0 :=
  (claim8_thm cfgW initialBot 10 rfl rfl).1

/-! ### Claim C1 -/

/-- Claim C1 counterexample: after a single cycle of `run()` in which
`execute_cycle` raises an exception, `success_count + failure_count`
is 1 while `cycles_completed` is 0, because `_on_cycle_exception` does
not increment `cycles_completed`. -/
theorem claim1_counterexample :
    ¬ ((runBot cfgW true initialBot [CycleOutcome.exc]).1.stats.success_count
        + (runBot cfgW true initialBot [CycleOutcome.exc]).1.stats.failure_count
      = (runBot cfgW true initialBot [CycleOutcome.exc]).1.stats.cycles_completed) := by
  decide

/-- Claim C1 amended: after every completed cycle of `BaseBot.run()`,
`success_count + failure_count` equals `cycles_completed` plus the
number of exception cycles processed so far (stated relative to an
arbitrary starting offset `k`): cycles that return true or false
preserve the invariant, while an exception cycle increments
`failure_count` but not `cycles_completed`, so the spec equality holds
exactly on traces without exceptions. -/
theorem claim1_amended (cfg : BotConfig) (os : List CycleOutcome)
    (b : BotMachine) (k : Nat)
    (h : b.stats.success_count + b.stats.failure_count
      = b.stats.cycles_completed + k) :
    (runCycles cfg b os).1.stats.success_count
      + (runCycles cfg b os).1.stats.failure_count
    = (runCycles cfg b os).1.stats.cycles_completed
      + (k + countExc (os.take (runCycles cfg b os).2)) := by
  induction os generalizing b k with
  | nil => simpa [runCycles, countExc] using h
  | cons o rest ih =>
    by_cases hg : (b.stopRequested = true ∨ cfg.enabled = false)
    · simp only [runCycles, if_pos hg]
      simpa [countExc] using h
    · cases o with
      | cancelled =>
        simp only [runCycles, if_neg hg]
        simpa [countExc] using h
      | success t =>
        simp only [runCycles, if_neg hg]
        split
        · simp [countExc]
          omega
        · have ih' := ih
            (postDelay cfg (breakerCheck cfg { b with stats := onCycleSuccess b.stats t }).1)
            k (by simp; omega)
          simp only [List.take_succ_cons, countExc] at ih' ⊢
          simpa using ih'
      | failure =>
        simp only [runCycles, if_neg hg]
        split
        · simp [countExc]
          omega
        · have ih' := ih
            (postDelay cfg (breakerCheck cfg { b with stats := onCycleFailure b.stats }).1)
            k (by simp; omega)
          simp only [List.take_succ_cons, countExc] at ih' ⊢
          simpa using ih'
      | exc =>
        simp only [runCycles, if_neg hg]
        have ih' := ih
          (postDelay cfg { b with stats := onCycleException b.stats })
          (k + 1) (by simp; omega)
        simp only [List.take_succ_cons, countExc] at ih' ⊢
        simp at ih' ⊢
        omega

/-- Witness for C1 amended: starting a fresh bot (offset 0), a failure
cycle followed by an exception cycle leaves
`success_count + failure_count = cycles_completed + 1`. -/
theorem claim1_witness :
    (runCycles cfgW initialBot [CycleOutcome.failure, CycleOutcome.exc]).1.stats.success_count
      + (runCycles cfgW initialBot [CycleOutcome.failure, CycleOutcome.exc]).1.stats.failure_count
    = (runCycles cfgW initialBot [CycleOutcome.failure, CycleOutcome.exc]).1.stats.cycles_completed
      + (0 + countExc ([CycleOutcome.failure, CycleOutcome.exc].take
          (runCycles cfgW initialBot [CycleOutcome.failure, CycleOutcome.exc]).2)) :=
  claim1_amended cfgW [CycleOutcome.failure, CycleOutcome.exc] initialBot 0 (by decide)

/-! ### Claim C2 -/

/-- In a run whose `execute_cycle` fails (returns `False`) on every
cycle, with `stop_on_critical_error` set, starting `d ≥ 1` errors
below the ceiling and given at least `d` available cycles, the loop
executes exactly `d` further cycles, all failures, and exits through
the circuit breaker. -/
theorem runCycles_allFail (cfg : BotConfig) (hen : cfg.enabled = true)
    (hsc : cfg.stop_on_critical_error = true) :
    ∀ d M, ∀ b : BotMachine, b.stopRequested = false →
      b.stats.consecutive_errors + d = cfg.max_consecutive_errors →
      1 ≤ d → d ≤ M →
      (runCycles cfg b (List.replicate M CycleOutcome.failure)).1.stats.success_count
          = b.stats.success_count
      ∧ (runCycles cfg b (List.replicate M CycleOutcome.failure)).1.stats.failure_count
          = b.stats.failure_count + d
      ∧ (runCycles cfg b (List.replicate M CycleOutcome.failure)).1.stats.cycles_completed
          = b.stats.cycles_completed + d
      ∧ (runCycles cfg b (List.replicate M CycleOutcome.failure)).2 = d := by
  intro d
  induction d with
  | zero => intro M b _ _ h1 _; omega
  | succ d ih =>
    intro M b hb hcons _ hM
    cases M with
    | zero => omega
    | succ M' =>
      rw [List.replicate_succ]
      simp only [runCycles]
      rw [if_neg (by simp [hb, hen])]
      rcases Nat.eq_zero_or_pos d with hd | hd
      · subst hd
        have hbrk : (breakerCheck cfg { b with stats := onCycleFailure b.stats }).2 = true := by
          have hc : cfg.max_consecutive_errors ≤ b.stats.consecutive_errors + 1 := by
            omega
          simp [breakerCheck, hc, hsc]
        rw [if_pos hbrk]
        refine ⟨by simp, by simp, by simp, rfl⟩
      · have hbrk : (breakerCheck cfg { b with stats := onCycleFailure b.stats }).2 = false := by
          have hc : ¬ (cfg.max_consecutive_errors ≤ b.stats.consecutive_errors + 1) := by
            omega
          simp [breakerCheck, hc]
        rw [if_neg (by simp [hbrk])]
        have ihr := ih M'
          (postDelay cfg (breakerCheck cfg { b with stats := onCycleFailure b.stats }).1)
          (by simp [hb]) (by simp; omega) hd (by omega)
        obtain ⟨i1, i2, i3, i4⟩ := ihr
        simp at i1 i2 i3
        refine ⟨by rw [i1], by rw [i2]; omega, by rw [i3]; omega, by rw [i4]⟩

/-- Claim C2 counterexample: with `max_consecutive_errors = 0` (a value
the configuration loader accepts), an enabled always-failing bot does
not exit after 0 cycles with `failure_count = 0` as the claim demands
for `N = 0`: the breaker only fires after the first failed cycle, so
one cycle executes and `failure_count = 1`. -/
theorem claim2_counterexample :
    ¬ ((runBot (alwaysStopCfg 300 0) true initialBot
          (List.replicate 1 CycleOutcome.failure)).2 = 0
      ∧ (runBot (alwaysStopCfg 300 0) true initialBot
          (List.replicate 1 CycleOutcome.failure)).1.stats.failure_count = 0) := by
  decide

/-- Claim C2 amended: for every enabled bot whose initialization
succeeds, configured with `max_consecutive_errors = N ≥ 1` and
`stop_on_critical_error = true`, and whose `execute_cycle` returns
`False` on every call: `run()` exits after exactly `N` cycles with
final status `Stopped`, `failure_count = N` and `success_count = 0`,
and no further cycles execute (the count is `N` however many more
cycles were available). -/
theorem claim2_amended (cd : Rat) (N M : Nat) (hN : 1 ≤ N) (hM : N ≤ M) :
    (runBot (alwaysStopCfg cd N) true initialBot
        (List.replicate M CycleOutcome.failure)).1.status = BotStatus.stopped
  ∧ (runBot (alwaysStopCfg cd N) true initialBot
        (List.replicate M CycleOutcome.failure)).1.stats.failure_count = N
  ∧ (runBot (alwaysStopCfg cd N) true initialBot
        (List.replicate M CycleOutcome.failure)).1.stats.success_count = 0
  ∧ (runBot (alwaysStopCfg cd N) true initialBot
        (List.replicate M CycleOutcome.failure)).2 = N := by
  have h := runCycles_allFail (alwaysStopCfg cd N) rfl rfl N M
    (initializeStep true initialBot) rfl
    (by simp [initializeStep, initialBot, alwaysStopCfg]) hN hM
  obtain ⟨h1, h2, h3, h4⟩ := h
  simp [initializeStep, initialBot] at h1 h2 h3
  simp only [runBot]
  rw [if_neg (by decide)]
  refine ⟨by simp, ?_, ?_, ?_⟩
  · simpa using h2
  · simpa using h1
  · simpa using h4

/-- Witness for C2 amended at `N = 3`, `M = 5`: the run stops after
exactly 3 cycles with 3 failures. -/
theorem claim2_witness :
    (runBot (alwaysStopCfg 300 3) true initialBot
        (List.replicate 5 CycleOutcome.failure)).1.stats.failure_count = 3 :=
  (claim2_amended 300 3 5 (by decide) (by decide)).2.1

/-! ### Association-list (Python dict) lemmas -/

theorem lookupK_not_mem {α : Type} (x : String) (l : List (String × α))
    (h : x ∉ l.map Prod.fst) : lookupK x l = none := by
  induction l with
  | nil => rfl
  | cons p rest ih =>
    obtain ⟨n, v⟩ := p
    simp only [List.map_cons, List.mem_cons, not_or] at h
    simp only [lookupK]
    rw [if_neg (fun hn => h.1 hn.symm)]
    exact ih h.2

theorem lookupK_removeK_ne {α : Type} (x y : String) (hxy : y ≠ x)
    (l : List (String × α)) : lookupK x (removeK y l) = lookupK x l := by
  induction l with
  | nil => rfl
  | cons p rest ih =>
    obtain ⟨n, v⟩ := p
    simp only [removeK]
    by_cases hn : n = y
    · rw [if_pos hn]
      simp only [lookupK]
      rw [if_neg (by rw [hn]; exact hxy)]
    · rw [if_neg hn]
      simp only [lookupK]
      by_cases hx : n = x
      · rw [if_pos hx, if_pos hx]
      · rw [if_neg hx, if_neg hx]; exact ih

theorem lookupK_updateK_ne {α : Type} (x y : String) (hxy : y ≠ x) (v : α)
    (l : List (String × α)) : lookupK x (updateK y v l) = lookupK x l := by
  induction l with
  | nil =>
    simp only [updateK, lookupK]
    rw [if_neg hxy]
  | cons p rest ih =>
    obtain ⟨n, u⟩ := p
    simp only [updateK]
    by_cases hn : n = y
    · rw [if_pos hn]
      simp only [lookupK]
      rw [if_neg hxy, if_neg (by rw [hn]; exact hxy)]
    · rw [if_neg hn]
      simp only [lookupK]
      by_cases hx : n = x
      · rw [if_pos hx, if_pos hx]
      · rw [if_neg hx, if_neg hx]; exact ih

theorem lookupK_updateK_self {α : Type} (y : String) (v : α)
    (l : List (String × α)) : lookupK y (updateK y v l) = some v := by
  induction l with
  | nil => simp [updateK, lookupK]
  | cons p rest ih =>
    obtain ⟨n, u⟩ := p
    simp only [updateK]
    by_cases hn : n = y
    · rw [if_pos hn]; simp [lookupK]
    · rw [if_neg hn]
      simp only [lookupK]
      rw [if_neg hn]
      exact ih

theorem mem_keys_removeK {α : Type} (y z : String) (l : List (String × α))
    (h : z ∈ (removeK y l).map Prod.fst) : z ∈ l.map Prod.fst := by
  induction l with
  | nil => simp [removeK] at h
  | cons p rest ih =>
    obtain ⟨n, v⟩ := p
    simp only [removeK] at h
    by_cases hn : n = y
    · rw [if_pos hn] at h
      simp only [List.map_cons, List.mem_cons]
      exact Or.inr h
    · rw [if_neg hn] at h
      simp only [List.map_cons, List.mem_cons] at h ⊢
      rcases h with h | h
      · exact Or.inl h
      · exact Or.inr (ih h)

theorem mem_keys_updateK {α : Type} (y z : String) (v : α)
    (l : List (String × α)) (h : z ∈ (updateK y v l).map Prod.fst) :
    z ∈ l.map Prod.fst ∨ z = y := by
  induction l with
  | nil =>
    simp only [updateK, List.map_cons, List.map_nil, List.mem_singleton] at h
    exact Or.inr h
  | cons p rest ih =>
    obtain ⟨n, u⟩ := p
    simp only [updateK] at h
    by_cases hn : n = y
    · rw [if_pos hn] at h
      simp only [List.map_cons, List.mem_cons] at h ⊢
      rcases h with h | h
      · exact Or.inr h
      · exact Or.inl (Or.inr h)
    · rw [if_neg hn] at h
      simp only [List.map_cons, List.mem_cons] at h ⊢
      rcases h with h | h
      · exact Or.inl (Or.inl h)
      · rcases ih h with h2 | h2
        · exact Or.inl (Or.inr h2)
        · exact Or.inr h2

theorem nodup_keys_removeK {α : Type} (y : String) (l : List (String × α))
    (h : (l.map Prod.fst).Nodup) : ((removeK y l).map Prod.fst).Nodup := by
  induction l with
  | nil => simp [removeK]
  | cons p rest ih =>
    obtain ⟨n, v⟩ := p
    simp only [List.map_cons, List.nodup_cons] at h
    simp only [removeK]
    by_cases hn : n = y
    · rw [if_pos hn]; exact h.2
    · rw [if_neg hn]
      simp only [List.map_cons, List.nodup_cons]
      exact ⟨fun hm => h.1 (mem_keys_removeK y n rest hm), ih h.2⟩

theorem nodup_keys_updateK {α : Type} (y : String) (v : α)
    (l : List (String × α)) (h : (l.map Prod.fst).Nodup) :
    ((updateK y v l).map Prod.fst).Nodup := by
  induction l with
  | nil => simp [updateK]
  | cons p rest ih =>
    obtain ⟨n, u⟩ := p
    simp only [List.map_cons, List.nodup_cons] at h
    simp only [updateK]
    by_cases hn : n = y
    · rw [if_pos hn]
      simp only [List.map_cons, List.nodup_cons]
      exact ⟨by rw [← hn]; exact h.1, h.2⟩
    · rw [if_neg hn]
      simp only [List.map_cons, List.nodup_cons]
      refine ⟨fun hm => ?_, ih h.2⟩
      rcases mem_keys_updateK y n v rest hm with h2 | h2
      · exact h.1 h2
      · exact hn h2

theorem lookupK_removeK_self {α : Type} (y : String) (l : List (String × α))
    (h : (l.map Prod.fst).Nodup) : lookupK y (removeK y l) = none := by
  induction l with
  | nil => rfl
  | cons p rest ih =>
    obtain ⟨n, v⟩ := p
    simp only [List.map_cons, List.nodup_cons] at h
    simp only [removeK]
    by_cases hn : n = y
    · rw [if_pos hn]
      apply lookupK_not_mem
      rw [← hn]; exact h.1
    · rw [if_neg hn]
      simp only [lookupK]
      rw [if_neg hn]
      exact ih h.2

theorem countK_eq_zero {α : Type} (x : String) (l : List (String × α))
    (h : x ∉ l.map Prod.fst) : countK x l = 0 := by
  induction l with
  | nil => rfl
  | cons p rest ih =>
    obtain ⟨n, v⟩ := p
    simp only [List.map_cons, List.mem_cons, not_or] at h
    have h2 := ih h.2
    have hne : ¬ n = x := fun hh => h.1 hh.symm
    simp only [countK] at h2 ⊢
    rw [List.countP_cons, h2]
    simp [hne]

theorem countK_eq_one {α : Type} (x : String) (l : List (String × α)) (t : α)
    (hnd : (l.map Prod.fst).Nodup) (h : lookupK x l = some t) :
    countK x l = 1 := by
  induction l with
  | nil => simp [lookupK] at h
  | cons p rest ih =>
    obtain ⟨n, v⟩ := p
    simp only [List.map_cons, List.nodup_cons] at hnd
    simp only [lookupK] at h
    by_cases hn : n = x
    · have hz : countK x rest = 0 :=
        countK_eq_zero x rest (by rw [← hn]; exact hnd.1)
      simp only [countK] at hz ⊢
      rw [List.countP_cons, hz]
      simp [hn]
    · rw [if_neg hn] at h
      have h1 := ih hnd.2 h
      simp only [countK] at h1 ⊢
      rw [List.countP_cons, h1]
      simp [hn]

theorem lookupK_split {α : Type} (x : String) (l : List (String × α)) (t : α)
    (h : lookupK x l = some t) :
    ∃ l1 l2, l = l1 ++ (x, t) :: l2 ∧ ∀ q ∈ l1, q.1 ≠ x := by
  induction l with
  | nil => simp [lookupK] at h
  | cons p rest ih =>
    obtain ⟨n, v⟩ := p
    simp only [lookupK] at h
    by_cases hn : n = x
    · rw [if_pos hn] at h
      obtain rfl : v = t := by injection h
      refine ⟨[], rest, ?_, by simp⟩
      simp only [List.nil_append]
      rw [hn]
    · rw [if_neg hn] at h
      obtain ⟨l1, l2, he, hp⟩ := ih h
      refine ⟨(n, v) :: l1, l2, by rw [List.cons_append, he], ?_⟩
      intro q hq
      rcases List.mem_cons.mp hq with h1 | h1
      · rw [h1]; exact hn
      · exact hp q h1

/-! ### Manager-operation lemmas -/

theorem stopBot_untracked (m : ManagerState) (x : String)
    (h : lookupK x m.tasks = none) : stopBot m x = (m, true) := by
  simp [stopBot, h]

theorem startBot_bots (m : ManagerState) (x : String) :
    (startBot m x).1.bots = m.bots := by
  unfold startBot
  repeat' split
  all_goals rfl

theorem lookupK_startBot_ne (m : ManagerState) (x y : String) (hyx : y ≠ x) :
    lookupK x (startBot m y).1.tasks = lookupK x m.tasks := by
  unfold startBot
  repeat' split
  all_goals first
    | rfl
    | exact lookupK_updateK_ne x y hyx _ m.tasks

theorem nodup_startBot (m : ManagerState) (x : String)
    (h : (m.tasks.map Prod.fst).Nodup) :
    ((startBot m x).1.tasks.map Prod.fst).Nodup := by
  unfold startBot
  repeat' split
  all_goals first
    | exact h
    | exact nodup_keys_updateK x _ m.tasks h

theorem processEntry_bots (m : ManagerState) (p : String × BotTask)
    (h : (m.tasks.map Prod.fst).Nodup) : (processEntry m p).bots = m.bots := by
  unfold processEntry
  by_cases hd : p.2.done = true
  · rw [if_pos hd]
    rcases hb : lookupK p.1 m.bots with _ | e
    · simp [hb]
    · have hst : stopBot { m with tasks := removeK p.1 m.tasks } p.1
          = ({ m with tasks := removeK p.1 m.tasks }, true) :=
        stopBot_untracked _ _ (lookupK_removeK_self p.1 m.tasks h)
      by_cases he : e.enabled = true
      · simp [hb, he, restartBot, hst, startBot_bots]
      · simp [hb, he]
  · rw [if_neg hd]

theorem processEntry_nodup (m : ManagerState) (p : String × BotTask)
    (h : (m.tasks.map Prod.fst).Nodup) :
    ((processEntry m p).tasks.map Prod.fst).Nodup := by
  have hrm : (((removeK p.1 m.tasks).map Prod.fst)).Nodup :=
    nodup_keys_removeK p.1 m.tasks h
  unfold processEntry
  by_cases hd : p.2.done = true
  · rw [if_pos hd]
    rcases hb : lookupK p.1 m.bots with _ | e
    · simpa [hb] using hrm
    · have hst : stopBot { m with tasks := removeK p.1 m.tasks } p.1
          = ({ m with tasks := removeK p.1 m.tasks }, true) :=
        stopBot_untracked _ _ (lookupK_removeK_self p.1 m.tasks h)
      by_cases he : e.enabled = true
      · simp only [hb, he, if_true, restartBot, hst]
        exact nodup_startBot _ p.1 hrm
      · simpa [hb, he] using hrm
  · rw [if_neg hd]; exact h

theorem processEntry_lookup_ne (m : ManagerState) (p : String × BotTask)
    (x : String) (h : (m.tasks.map Prod.fst).Nodup) (hne : p.1 ≠ x) :
    lookupK x (processEntry m p).tasks = lookupK x m.tasks := by
  have hrm : lookupK x (removeK p.1 m.tasks) = lookupK x m.tasks :=
    lookupK_removeK_ne x p.1 hne m.tasks
  unfold processEntry
  by_cases hd : p.2.done = true
  · rw [if_pos hd]
    rcases hb : lookupK p.1 m.bots with _ | e
    · simpa [hb] using hrm
    · have hst : stopBot { m with tasks := removeK p.1 m.tasks } p.1
          = ({ m with tasks := removeK p.1 m.tasks }, true) :=
        stopBot_untracked _ _ (lookupK_removeK_self p.1 m.tasks h)
      by_cases he : e.enabled = true
      · simp only [hb, he, if_true, restartBot, hst]
        rw [lookupK_startBot_ne _ x p.1 hne]
        exact hrm
      · simpa [hb, he] using hrm
  · rw [if_neg hd]

theorem processEntry_at_self (m : ManagerState) (x : String) (t : BotTask)
    (e : BotEntry) (h : (m.tasks.map Prod.fst).Nodup) (hdone : t.done = true)
    (hb : lookupK x m.bots = some e) :
    (e.enabled = true →
      lookupK x (processEntry m (x, t)).tasks
        = some { id := m.nextId, done := false })
  ∧ (e.enabled = false → lookupK x (processEntry m (x, t)).tasks = none) := by
  have hrm : lookupK x (removeK x m.tasks) = none :=
    lookupK_removeK_self x m.tasks h
  have hst : stopBot { m with tasks := removeK x m.tasks } x
      = ({ m with tasks := removeK x m.tasks }, true) :=
    stopBot_untracked _ _ hrm
  constructor
  · intro he
    unfold processEntry
    rw [if_pos hdone]
    simp only [hb, he, if_true, restartBot, hst]
    simp only [startBot, hb, he]
    simp only [hrm]
    exact lookupK_updateK_self x _ (removeK x m.tasks)
  · intro he
    unfold processEntry
    rw [if_pos hdone]
    simp only [hb, he]
    simpa using hrm

theorem foldl_processEntry_preserve (x : String)
    (l : List (String × BotTask)) :
    ∀ m : ManagerState, (m.tasks.map Prod.fst).Nodup →
      (∀ q ∈ l, q.1 ≠ x) →
      lookupK x (l.foldl processEntry m).tasks = lookupK x m.tasks
    ∧ (l.foldl processEntry m).bots = m.bots
    ∧ ((l.foldl processEntry m).tasks.map Prod.fst).Nodup := by
  induction l with
  | nil => intro m h _; exact ⟨rfl, rfl, h⟩
  | cons p rest ih =>
    intro m h hq
    simp only [List.foldl_cons]
    have hpx : p.1 ≠ x := hq p (List.mem_cons_self p rest)
    have h1 := processEntry_lookup_ne m p x h hpx
    have h2 := processEntry_bots m p h
    have h3 := processEntry_nodup m p h
    obtain ⟨i1, i2, i3⟩ :=
      ih (processEntry m p) h3 (fun q hq2 => hq q (List.mem_cons_of_mem p hq2))
    exact ⟨by rw [i1, h1], by rw [i2, h2], i3⟩

/-! ### Claim C5 -/

/-- Claim C5: if a tracked task handle for bot `x` has finished
(`task.done()`) when a health-check pass runs, then: when `x`'s
configuration is enabled, that pass removes the stale handle and
afterwards a fresh, not-yet-done task is tracked for `x`
(auto-restart); when `x`'s configuration is disabled, the stale handle
is removed and no task is tracked for `x` afterwards. -/
theorem claim5_thm (m : ManagerState) (x : String) (t : BotTask)
    (e : BotEntry) (hnd : (m.tasks.map Prod.fst).Nodup)
    (ht : lookupK x m.tasks = some t) (hdone : t.done = true)
    (hb : lookupK x m.bots = some e) :
    (e.enabled = true →
      ∃ u : BotTask, lookupK x (healthCheck m).tasks = some u ∧ u.done = false)
  ∧ (e.enabled = false → lookupK x (healthCheck m).tasks = none) := by
  obtain ⟨l1, l2, hl, hp1⟩ := lookupK_split x m.tasks t ht
  have hkeys : ((l1.map Prod.fst) ++ x :: l2.map Prod.fst).Nodup := by
    rw [hl] at hnd
    simpa using hnd
  have hx2 : ∀ q ∈ l2, q.1 ≠ x := by
    intro q hq heq
    have hmem : x ∈ l2.map Prod.fst := by
      rw [← heq]
      exact List.mem_map_of_mem Prod.fst hq
    have hr : (x :: l2.map Prod.fst).Nodup := (List.nodup_append.mp hkeys).2.1
    exact (List.nodup_cons.mp hr).1 hmem
  have hfold : healthCheck m
      = l2.foldl processEntry (processEntry (l1.foldl processEntry m) (x, t)) := by
    simp only [healthCheck]
    conv_lhs => rw [hl]
    rw [List.foldl_append, List.foldl_cons]
  obtain ⟨f1, f2, f3⟩ := foldl_processEntry_preserve x l1 m hnd hp1
  have hb2 : lookupK x (l1.foldl processEntry m).bots = some e := by
    rw [f2]; exact hb
  have hps := processEntry_at_self (l1.foldl processEntry m) x t e f3 hdone hb2
  have hnd2 : ((processEntry (l1.foldl processEntry m) (x, t)).tasks.map Prod.fst).Nodup :=
    processEntry_nodup _ _ f3
  obtain ⟨g1, g2, g3⟩ := foldl_processEntry_preserve x l2
    (processEntry (l1.foldl processEntry m) (x, t)) hnd2 hx2
  constructor
  · intro he
    refine ⟨{ id := (l1.foldl processEntry m).nextId, done := false }, ?_, rfl⟩
    rw [hfold, g1]
    exact hps.1 he
  · intro he
    rw [hfold, g1]
    exact hps.2 he

/-- Witness for C5: on the sample manager whose only bot "a" is enabled
and whose tracked task has finished, the health-check pass tracks a
fresh not-done task for "a". -/
theorem claim5_witness :
    ∃ u : BotTask, lookupK "a" (healthCheck mgrA).tasks = some u
      ∧ u.done = false :=
  (claim5_thm mgrA "a" { id := 0, done := true } entryW (by decide)
    (by decide) rfl (by decide)).1 rfl

/-! ### Claim C9 -/

/-- Claim C9: `BotManager.start_bot` is idempotent and enabled-gated:
when the named bot exists, its configuration is enabled, and a
not-yet-done task is already tracked for the name, the call changes
nothing and returns `True`, leaving exactly one tracked task for the
name; when the configuration is disabled, the call changes nothing and
returns `False`, so no task is created. -/
theorem claim9_thm (m : ManagerState) (x : String) (e : BotEntry)
    (t : BotTask) (hb : lookupK x m.bots = some e)
    (hnd : (m.tasks.map Prod.fst).Nodup) :
    (e.enabled = true → lookupK x m.tasks = some t → t.done = false →
      startBot m x = (m, true) ∧ countK x (startBot m x).1.tasks = 1)
  ∧ (e.enabled = false → startBot m x = (m, false)) := by
  constructor
  · intro he ht hdone
    have hs : startBot m x = (m, true) := by
      simp [startBot, hb, he, ht, hdone]
    refine ⟨hs, ?_⟩
    rw [hs]
    exact countK_eq_one x m.tasks t hnd ht
  · intro he
    simp [startBot, hb, he]

/-- Witness for C9: starting the sample bot "a" while its live task is
tracked changes nothing and returns success. -/
theorem claim9_witness : startBot mgr9 "a" = (mgr9, true) :=
  (((claim9_thm mgr9 "a" entryW { id := 0, done := false } (by decide)
    (by decide)).1) rfl (by decide) rfl).1

/-! ### Claim C10 -/

/-- Claim C10: `BotManager.stop_bot` on a name with no tracked task
handle — including names not present among the configured bots —
returns `True` and leaves the manager state (task map and every bot
instance) unchanged. -/
theorem claim10_thm (m : ManagerState) (x : String)
    (h : lookupK x m.tasks = none) : stopBot m x = (m, true) := by
  simp [stopBot, h]

/-- Witness for C10: stopping the unconfigured, untracked name "b" on
the sample manager succeeds and changes nothing. -/
theorem claim10_witness : stopBot mgr10 "b" = (mgr10, true) :=
  claim10_thm mgr10 "b" rfl

end CryptoBotManager
